import Mathlib

/-!
# Cost-recognition and GRIR-exposure engine: shallow embedding

This file embeds the core of the cost-management pipeline
(`scripts/stage2_transform/05_calculate_cost_impact.py` and
`scripts/stage2_transform/06_calculate_grir.py`, with the constants of
`scripts/config/column_mappings.py`) as executable Lean definitions and
proves the specified properties about them.

Quantities, amounts and unit prices are modelled as rationals (`ℚ`);
posting dates and the snapshot date as integers (day numbers).  Python's
binary floating point is modelled exactly where a claim hinges on it
(division by zero producing `inf`), via the `PyFloat` type below.
-/

/-- Posting type tag, `"GR" < "IR"` lexically in the source's sort key. -/
inductive PostingType
  | GR
  | IR
deriving DecidableEq, Repr

/-- One typed event of a PO line's merged stream
(`combined` rows in both scripts). -/
structure Posting where
  date : ℤ
  ptype : PostingType
  qty : ℚ
deriving DecidableEq, Repr

/-- A row of `po_line_items.csv` restricted to the columns the engines read. -/
structure POLine where
  po_line_id : String
  vendor_category : String
  account_assignment_category : String
  ordered_qty : ℚ
  po_value_usd : ℚ
  receipt_status : String
deriving DecidableEq, Repr

/-- A row of `gr_postings.csv` restricted to the columns the engines read. -/
structure GRPosting where
  po_line_id : String
  date : ℤ
  qty : ℚ
  amount : ℚ
deriving DecidableEq, Repr

/-- A row of `ir_postings.csv` restricted to the columns the engines read. -/
structure IRPosting where
  po_line_id : String
  date : ℤ
  qty : ℚ
deriving DecidableEq, Repr

/-- Python's `round` to 0 decimals: round half to even (banker's rounding). -/
def pyRound (x : ℚ) : ℤ :=
  if x - ⌊x⌋ = 1/2 then (if ⌊x⌋ % 2 = 0 then ⌊x⌋ else ⌊x⌋ + 1)
  else round x

/-- Python's `round(x, 2)`. -/
def round2 (x : ℚ) : ℚ := (pyRound (x * 100) : ℚ) / 100

/-- Python's `round(x, 4)`. -/
def round4 (x : ℚ) : ℚ := (pyRound (x * 10000) : ℚ) / 10000

/-- `SIMPLE_VENDOR_CATEGORY` from `config/column_mappings.py`. -/
def SIMPLE_VENDOR_CATEGORY : String := "GLD"

/-- `SIMPLE_ACCOUNT_CATEGORIES` from `config/column_mappings.py`. -/
def SIMPLE_ACCOUNT_CATEGORIES : List String := ["K", "P", "S", "V"]

/-- `GRIR_TIME_BUCKETS` from `config/column_mappings.py`
(already in the ascending-key order that `sorted(...items())` produces). -/
def GRIR_TIME_BUCKETS : List (ℤ × String) :=
  [(30, "<1 month"), (90, "1-3 months"), (180, "3-6 months"), (365, "6-12 months")]

/-- `GRIR_TIME_BUCKET_MAX` from `config/column_mappings.py`. -/
def GRIR_TIME_BUCKET_MAX : String := ">1 year"

/-- The Simple/Complex classification predicate of
`classify_po_line_items` (05): vendor category `GLD` and account
assignment category in `{K, P, S, V}`. -/
def isSimplePOLine (r : POLine) : Bool :=
  r.vendor_category == SIMPLE_VENDOR_CATEGORY
    && SIMPLE_ACCOUNT_CATEGORIES.contains r.account_assignment_category

/-- `classify_po_line_items` (05): the pair (simple ids, complex ids).
Python builds two `set`s from the mask and its complement; sets are
modelled as deduplicated lists. -/
def classify_po_line_items (po : List POLine) : List String × List String :=
  (((po.filter (fun r => isSimplePOLine r)).map (fun r => r.po_line_id)).dedup,
   ((po.filter (fun r => !(isSimplePOLine r))).map (fun r => r.po_line_id)).dedup)

/-- `get_simple_po_ids` (06): Simple classification and additionally
`PO Receipt Status != "CLOSED PO"`. -/
def get_simple_po_ids (po : List POLine) : List String :=
  ((po.filter (fun r => isSimplePOLine r && r.receipt_status != "CLOSED PO")).map
    (fun r => r.po_line_id)).dedup

/-- `get_unit_prices` (06) / the inline unit-price dict of (05):
`Purchase Value USD / Ordered Quantity`, keyed by `PO Line ID` with the
last row winning (pandas `set_index(...).to_dict()`), default 0 for a
missing id (`dict.get(po_line_id, 0)`).

Note: `ℚ` division returns 0 at a zero denominator, whereas the Python
float division returns `inf`/`nan`; that divergence is modelled
explicitly with `PyFloat` below and settled as its own finding. -/
def get_unit_prices (po : List POLine) (id : String) : ℚ :=
  match (po.filter (fun r => r.po_line_id == id)).getLast? with
  | some r => r.po_value_usd / r.ordered_qty
  | none => 0

/-- Rank of the posting-type string in the lexical sort
(`"GR" < "IR"`). -/
def typeRank : PostingType → ℕ
  | PostingType.GR => 0
  | PostingType.IR => 1

/-- Sort key order used by `sort_values(["PO Line ID", "Posting Date",
"Posting Type"])` within one PO line: ascending date, then type. -/
def postingOrder (a b : Posting) : Prop :=
  a.date < b.date ∨ (a.date = b.date ∧ typeRank a.ptype ≤ typeRank b.ptype)

instance : DecidableRel postingOrder := fun a b => by
  unfold postingOrder; infer_instance

/-- Conversion of a GR row to a typed event (the rename + tag step). -/
def grToPosting (p : GRPosting) : Posting :=
  { date := p.date, ptype := PostingType.GR, qty := p.qty }

/-- Conversion of an IR row to a typed event (the rename + tag step). -/
def irToPosting (p : IRPosting) : Posting :=
  { date := p.date, ptype := PostingType.IR, qty := p.qty }

/-- The merged, chronologically sorted event stream of one PO line
(`pd.concat` + `sort_values` + `groupby("PO Line ID")` group). -/
def mergedPostingsFor (gr : List GRPosting) (ir : List IRPosting) (id : String) :
    List Posting :=
  List.insertionSort postingOrder
    ((gr.filter (fun p => p.po_line_id == id)).map grToPosting
      ++ (ir.filter (fun p => p.po_line_id == id)).map irToPosting)

/-- Running state of the Complex-PO reducer of
`calculate_complex_cost_impact` (05). -/
structure CState where
  cum_gr : ℚ
  cum_ir : ℚ
  last : ℚ
deriving DecidableEq, Repr

/-- One emitted Cost Impact row of the Complex-PO reducer (per-line view,
the `PO Line ID` column being the group key). -/
structure CIRecord where
  date : ℤ
  ptype : PostingType
  posting_qty : ℚ
  cost_impact_qty : ℚ
  cost_impact_amount : ℚ
deriving DecidableEq, Repr

/-- One loop iteration of `calculate_complex_cost_impact` (05), lines
130-150: update the counter of the posting's own side, take the
reference, emit the delta against `last_cumulative`, advance
`last_cumulative`. -/
def complexStep (price : ℚ) (s : CState) (p : Posting) : CState × CIRecord :=
  match p.ptype with
  | PostingType.GR =>
      let g := s.cum_gr + p.qty
      let ref := if g ≥ s.cum_ir then g else max g s.cum_ir
      let q := ref - s.last
      (⟨g, s.cum_ir, s.last + q⟩,
       ⟨p.date, p.ptype, p.qty, q, round2 (q * price)⟩)
  | PostingType.IR =>
      let i := s.cum_ir + p.qty
      let ref := if i ≥ s.cum_gr then i else max s.cum_gr i
      let q := ref - s.last
      (⟨s.cum_gr, i, s.last + q⟩,
       ⟨p.date, p.ptype, p.qty, q, round2 (q * price)⟩)

/-- The per-line loop of `calculate_complex_cost_impact` (05) from an
arbitrary starting state, emitting one record per posting. -/
def complexRunAux (price : ℚ) (s : CState) : List Posting → List CIRecord
  | [] => []
  | p :: ps =>
      (complexStep price s p).2 :: complexRunAux price (complexStep price s p).1 ps

/-- `calculate_complex_cost_impact` (05) for one PO line: all three
counters start at 0. -/
def calculate_complex_cost_impact (price : ℚ) (ps : List Posting) : List CIRecord :=
  complexRunAux price ⟨0, 0, 0⟩ ps

/-- One emitted Cost Impact row of the Simple-PO branch of (05),
with its PO line id. -/
structure SCIRecord where
  po_line_id : String
  posting_date : ℤ
  posting_type : PostingType
  posting_qty : ℚ
  cost_impact_qty : ℚ
  cost_impact_amount : ℚ
deriving DecidableEq, Repr

/-- `calculate_simple_cost_impact` (05): filter the GR table to Simple
ids and emit one row per GR posting, passing quantity and the posting's
own `GR Amount` through. -/
def calculate_simple_cost_impact (gr : List GRPosting) (simple_ids : List String) :
    List SCIRecord :=
  (gr.filter (fun p => simple_ids.contains p.po_line_id)).map
    (fun p => ⟨p.po_line_id, p.date, PostingType.GR, p.qty, p.qty, p.amount⟩)

/-- Running state of the GRIR walk of `calculate_grir_exposures` (06). -/
structure GState where
  cum_gr : ℚ
  cum_ir : ℚ
  first : Option ℤ
deriving DecidableEq, Repr

/-- One loop iteration of `calculate_grir_exposures` (06), lines 149-165:
update the posting's own cumulative counter, set `first_exposure_date`
when IR exceeds GR and it is unset, clear it whenever GR has caught up. -/
def grirStep (s : GState) (p : Posting) : GState :=
  let s1 : GState :=
    match p.ptype with
    | PostingType.GR => ⟨s.cum_gr + p.qty, s.cum_ir, s.first⟩
    | PostingType.IR => ⟨s.cum_gr, s.cum_ir + p.qty, s.first⟩
  let f1 := if s1.cum_ir > s1.cum_gr ∧ s1.first = none then some p.date else s1.first
  let f2 := if s1.cum_gr ≥ s1.cum_ir then none else f1
  ⟨s1.cum_gr, s1.cum_ir, f2⟩

/-- `categorize_time_bucket` (06): first ascending threshold the value is
below-or-equal to, `GRIR_TIME_BUCKET_MAX` above the highest one. -/
def categorize_time_bucket (days : ℤ) : String :=
  match GRIR_TIME_BUCKETS.find? (fun tb => decide (days ≤ tb.1)) with
  | some tb => tb.2
  | none => GRIR_TIME_BUCKET_MAX

/-- One emitted GRIR exposure row of `calculate_grir_exposures` (06). -/
structure GRIRRecord where
  po_line_id : String
  grir_qty : ℚ
  grir_value : ℚ
  first_exposure_date : Option ℤ
  days_open : ℤ
  time_bucket : String
  snapshot_date : ℤ
deriving DecidableEq, Repr

/-- The per-line tail of `calculate_grir_exposures` (06), lines 167-191:
fold the stream, emit a row only when the final `cum_ir - cum_gr` is
positive, with the 4-dp-rounded quantity, the 2-dp-rounded value, the
`days_open = 0` fallback for an unset first exposure date, and the time
bucket. -/
def grirLineResult (id : String) (price : ℚ) (snapshot : ℤ) (ps : List Posting) :
    Option GRIRRecord :=
  let s := ps.foldl grirStep ⟨0, 0, none⟩
  let grir_qty := s.cum_ir - s.cum_gr
  if grir_qty > 0 then
    let days_open : ℤ := match s.first with | some d => snapshot - d | none => 0
    some ⟨id, round4 grir_qty, round2 (grir_qty * price), s.first, days_open,
          categorize_time_bucket days_open, snapshot⟩
  else none

/-- `calculate_grir_exposures` (06): one optional row per eligible PO
line id.  The Python `groupby` iterates the ids present in the filtered
posting tables; iterating all eligible ids is equivalent because an id
with no postings folds to the zero state and emits nothing. -/
def calculate_grir_exposures (po : List POLine) (gr : List GRPosting)
    (ir : List IRPosting) (snapshot : ℤ) : List GRIRRecord :=
  (get_simple_po_ids po).filterMap
    (fun id => grirLineResult id (get_unit_prices po id) snapshot (mergedPostingsFor gr ir id))

/-- The GR rows reaching the Simple branch of (05):
`gr_df[gr_df["PO Line ID"].isin(simple_po_ids)]`. -/
def simpleStreamGR (gr : List GRPosting) (po : List POLine) : List GRPosting :=
  gr.filter (fun p => (classify_po_line_items po).1.contains p.po_line_id)

/-- The GR rows reaching the Complex branch of (05):
`gr_df[gr_df["PO Line ID"].isin(complex_po_ids)]`. -/
def complexStreamGR (gr : List GRPosting) (po : List POLine) : List GRPosting :=
  gr.filter (fun p => (classify_po_line_items po).2.contains p.po_line_id)

/-- The IR rows reaching the Complex branch of (05). -/
def complexStreamIR (ir : List IRPosting) (po : List POLine) : List IRPosting :=
  ir.filter (fun p => (classify_po_line_items po).2.contains p.po_line_id)

/-- The GR rows reaching the GRIR engine (06):
`gr_df[gr_df["PO Line ID"].isin(simple_po_ids)]`. -/
def grirStreamGR (gr : List GRPosting) (po : List POLine) : List GRPosting :=
  gr.filter (fun p => (get_simple_po_ids po).contains p.po_line_id)

/-- The IR rows reaching the GRIR engine (06). -/
def grirStreamIR (ir : List IRPosting) (po : List POLine) : List IRPosting :=
  ir.filter (fun p => (get_simple_po_ids po).contains p.po_line_id)

/-- Sum of the quantities of the postings of one type in a stream
(the spec-side cumulative counter, defined by prefix sums rather than by
the engine's state). -/
def qtySum (t : PostingType) : List Posting → ℚ
  | [] => 0
  | p :: ps => (if p.ptype = t then p.qty else 0) + qtySum t ps

/-- Sum of `cost_impact_qty` over a list of Complex Cost Impact rows. -/
def impactSum : List CIRecord → ℚ
  | [] => 0
  | r :: rs => r.cost_impact_qty + impactSum rs

/-- The spec's `reference` for a posting of type `t` when the cumulative
counters (after the posting) are `g` and `i`: the just-updated counter if
it is ≥ the other counter, `max` of both otherwise. -/
def specReference (t : PostingType) (g i : ℚ) : ℚ :=
  match t with
  | PostingType.GR => if g ≥ i then g else max g i
  | PostingType.IR => if i ≥ g then i else max g i

/-- `max(cum_gr, cum_ir)` just after event `j` of the stream. -/
def prefixHigh (ps : List Posting) (j : ℕ) : ℚ :=
  max (qtySum PostingType.GR (ps.take (j+1))) (qtySum PostingType.IR (ps.take (j+1)))

/-- The largest `max(cum_gr, cum_ir)` observed at any point up to and
including event `k`. -/
def observedHigh (ps : List Posting) (k : ℕ) : ℚ :=
  ((List.range (k+1)).map (prefixHigh ps)).foldl max (prefixHigh ps 0)

/-- Total GR quantity recorded against one PO line id. -/
def grQtyTotal (gr : List GRPosting) (id : String) : ℚ :=
  ((gr.filter (fun p => p.po_line_id == id)).map (fun p => p.qty)).sum

/-- Total IR quantity recorded against one PO line id. -/
def irQtyTotal (ir : List IRPosting) (id : String) : ℚ :=
  ((ir.filter (fun p => p.po_line_id == id)).map (fun p => p.qty)).sum

/-- The spec's P1 scenario stream: unit price 2, GR 10 on day 1,
IR 15 on day 2, GR 5 on day 3. -/
def c1Stream : List Posting :=
  [⟨1, PostingType.GR, 10⟩, ⟨2, PostingType.IR, 15⟩, ⟨3, PostingType.GR, 5⟩]

/-- The same P1 stream, as the witness input of the conservation claim. -/
def c2Stream : List Posting :=
  [⟨1, PostingType.GR, 10⟩, ⟨2, PostingType.IR, 15⟩, ⟨3, PostingType.GR, 5⟩]

/-- PO line table of the spec's P2 (GRIR reset) scenario. -/
def c3POTable : List POLine := [⟨"P2", "GLD", "K", 1, 1, "OPEN"⟩]

/-- GR postings of the P2 scenario: GR 10 on day 2. -/
def c3GRTable : List GRPosting := [⟨"P2", 2, 10, 10⟩]

/-- IR postings of the P2 scenario: IR 10 on day 1, IR 3 on day 3. -/
def c3IRTable : List IRPosting := [⟨"P2", 1, 10⟩, ⟨"P2", 3, 3⟩]

/-- An eligible PO line with unit price 1, for the rounding
counterexample. -/
def c4POTable : List POLine := [⟨"P", "GLD", "K", 1, 1, "OPEN"⟩]

/-- A single IR posting of quantity 0.00004: positive exposure whose
4-dp-rounded quantity is 0. -/
def c4IRTable : List IRPosting := [⟨"P", 1, 1/25000⟩]

/-- An eligible PO line realising the spec's boundary example
(single IR of qty 5, unit price 10). -/
def c4wPOTable : List POLine := [⟨"W", "GLD", "K", 1, 10, "OPEN"⟩]

/-- The single IR posting of qty 5 on day 1 for that boundary example. -/
def c4wIRTable : List IRPosting := [⟨"W", 1, 5⟩]

/-- An eligible PO line for the only-GR counterexample. -/
def c6POTable : List POLine := [⟨"Q", "GLD", "K", 1, 1, "OPEN"⟩]

/-- A single negative GR posting (a reversal) and no IR at all:
`cum_ir - cum_gr = 5 > 0`, so a GRIR row is emitted. -/
def c6GRTable : List GRPosting := [⟨"Q", 1, -5, -5⟩]

/-- An eligible PO line for the amended only-GR witness. -/
def c6wPOTable : List POLine := [⟨"Q", "GLD", "K", 1, 1, "OPEN"⟩]

/-- A single positive GR posting and no IR: no exposure. -/
def c6wGRTable : List GRPosting := [⟨"Q", 1, 5, 5⟩]

/-- An eligible PO line for the negative-`days_open` counterexample. -/
def c8POTable : List POLine := [⟨"R", "GLD", "K", 1, 1, "OPEN"⟩]

/-- A single IR posting dated one day after the snapshot date 10. -/
def c8IRTable : List IRPosting := [⟨"R", 11, 5⟩]

/-- An eligible PO line for the `days_open` witness. -/
def c8wPOTable : List POLine := [⟨"S", "GLD", "K", 1, 1, "OPEN"⟩]

/-- A single IR posting dated day 1, before the snapshot date 10. -/
def c8wIRTable : List IRPosting := [⟨"S", 1, 5⟩]

/-- GR table for the Simple passthrough witness: one posting on the
simple line `"S1"` and one on an unrelated line. -/
def c7GRTable : List GRPosting := [⟨"S1", 1, 4, 7⟩, ⟨"T1", 1, 2, 2⟩]

/-- The PO line table of the orphan-posting input: a single line `"A"`. -/
def c9POTable : List POLine := [⟨"A", "GLD", "K", 1, 1, "OPEN"⟩]

/-- A GR posting whose `PO Line ID` `"X"` does not exist in the PO line
table. -/
def c9GRTable : List GRPosting := [⟨"X", 1, 5, 10⟩]

/-- An eligible PO line table for the first-exposure witness. -/
def c10POTable : List POLine := [⟨"U", "GLD", "K", 1, 1, "OPEN"⟩]

/-- A single IR posting on day 1 for the first-exposure witness. -/
def c10IRTable : List IRPosting := [⟨"U", 1, 5⟩]

/-- IEEE-754 double as produced by pandas arithmetic, restricted to the
values this development needs: a finite value (tracked exactly), the two
infinities and `nan`. -/
inductive PyFloat
  | finite (q : ℚ)
  | inf
  | neginf
  | nan
deriving DecidableEq, Repr

/-- pandas / numpy float division: a nonzero value divided by 0.0 gives
a signed infinity, `0.0 / 0.0` gives `nan`. -/
def pyDiv : PyFloat → PyFloat → PyFloat
  | PyFloat.finite a, PyFloat.finite b =>
      if b = 0 then
        (if a > 0 then PyFloat.inf else if a < 0 then PyFloat.neginf else PyFloat.nan)
      else PyFloat.finite (a / b)
  | PyFloat.nan, _ => PyFloat.nan
  | _, PyFloat.nan => PyFloat.nan
  | PyFloat.inf, PyFloat.inf => PyFloat.nan
  | PyFloat.inf, PyFloat.neginf => PyFloat.nan
  | PyFloat.neginf, PyFloat.inf => PyFloat.nan
  | PyFloat.neginf, PyFloat.neginf => PyFloat.nan
  | PyFloat.inf, PyFloat.finite b =>
      if b > 0 then PyFloat.inf else if b < 0 then PyFloat.neginf else PyFloat.inf
  | PyFloat.neginf, PyFloat.finite b =>
      if b > 0 then PyFloat.neginf else if b < 0 then PyFloat.inf else PyFloat.neginf
  | PyFloat.finite _, PyFloat.inf => PyFloat.finite 0
  | PyFloat.finite _, PyFloat.neginf => PyFloat.finite 0

/-- float multiplication with infinities: `inf * x` keeps the sign of
`x`, `inf * 0` is `nan`. -/
def pyMul : PyFloat → PyFloat → PyFloat
  | PyFloat.finite a, PyFloat.finite b => PyFloat.finite (a * b)
  | PyFloat.nan, _ => PyFloat.nan
  | _, PyFloat.nan => PyFloat.nan
  | PyFloat.finite a, PyFloat.inf =>
      if a > 0 then PyFloat.inf else if a < 0 then PyFloat.neginf else PyFloat.nan
  | PyFloat.finite a, PyFloat.neginf =>
      if a > 0 then PyFloat.neginf else if a < 0 then PyFloat.inf else PyFloat.nan
  | PyFloat.inf, PyFloat.finite b =>
      if b > 0 then PyFloat.inf else if b < 0 then PyFloat.neginf else PyFloat.nan
  | PyFloat.neginf, PyFloat.finite b =>
      if b > 0 then PyFloat.neginf else if b < 0 then PyFloat.inf else PyFloat.nan
  | PyFloat.inf, PyFloat.inf => PyFloat.inf
  | PyFloat.inf, PyFloat.neginf => PyFloat.neginf
  | PyFloat.neginf, PyFloat.inf => PyFloat.neginf
  | PyFloat.neginf, PyFloat.neginf => PyFloat.inf

/-- Python's `round(x, 2)` on a float: the infinities and `nan` round to
themselves. -/
def pyRound2 : PyFloat → PyFloat
  | PyFloat.finite q => PyFloat.finite (round2 q)
  | x => x

/-- The unit-price computation of `get_unit_prices` (06) and of the
inline dict of (05) in Python float semantics:
`Purchase Value USD / Ordered Quantity` with no guard on a zero
denominator. -/
def unitPriceFloat (line : POLine) : PyFloat :=
  pyDiv (PyFloat.finite line.po_value_usd) (PyFloat.finite line.ordered_qty)

/-- A Complex-class PO line (vendor category not `GLD`) with
`Ordered Quantity` 0 and `Purchase Value USD` 10. -/
def c5POLine : POLine := ⟨"Z", "OPS", "K", 0, 10, "OPEN"⟩

/-- The `cost_impact_amount` computation of (05),
`round(cost_impact_qty * unit_price, 2)`, in Python float semantics. -/
def costImpactAmountFloat (q : ℚ) (line : POLine) : PyFloat :=
  pyRound2 (pyMul (PyFloat.finite q) (unitPriceFloat line))

theorem pyRound_intCast (n : ℤ) : pyRound (n : ℚ) = n := by
  unfold pyRound
  rw [Int.floor_intCast]
  simp [round_intCast]

theorem pyRound_of_nonneg_lt_half (x : ℚ) (h1 : 0 ≤ x) (h2 : x < 1/2) :
    pyRound x = 0 := by
  have hfl : ⌊x⌋ = 0 := by
    rw [Int.floor_eq_zero_iff]
    exact ⟨h1, by linarith⟩
  unfold pyRound
  rw [hfl]
  have hne : ¬(x - ((0 : ℤ) : ℚ) = 1/2) := by
    intro h
    push_cast at h
    rw [sub_zero] at h
    rw [h] at h2
    exact lt_irrefl _ h2
  rw [if_neg (by simpa using hne)]
  rw [round_eq]
  rw [Int.floor_eq_zero_iff]
  exact ⟨by linarith, by linarith⟩

theorem round2_intCast (n : ℤ) : round2 (n : ℚ) = n := by
  unfold round2
  rw [show ((n : ℚ) * 100) = ((n * 100 : ℤ) : ℚ) by push_cast; ring]
  rw [pyRound_intCast]
  push_cast
  ring

theorem round4_intCast (n : ℤ) : round4 (n : ℚ) = n := by
  unfold round4
  rw [show ((n : ℚ) * 10000) = ((n * 10000 : ℤ) : ℚ) by push_cast; ring]
  rw [pyRound_intCast]
  push_cast
  ring

theorem complexStep_fst_cum_gr (price : ℚ) (s : CState) (p : Posting) :
    ((complexStep price s p).1).cum_gr
      = s.cum_gr + (if p.ptype = PostingType.GR then p.qty else 0) := by
  cases p with
  | mk d t q => cases t <;> simp [complexStep]

theorem complexStep_fst_cum_ir (price : ℚ) (s : CState) (p : Posting) :
    ((complexStep price s p).1).cum_ir
      = s.cum_ir + (if p.ptype = PostingType.IR then p.qty else 0) := by
  cases p with
  | mk d t q => cases t <;> simp [complexStep]

theorem complexStep_fst_last (price : ℚ) (s : CState) (p : Posting) :
    ((complexStep price s p).1).last
      = s.last + ((complexStep price s p).2).cost_impact_qty := by
  cases p with
  | mk d t q => cases t <;> simp [complexStep]

theorem complexStep_snd_qty (price : ℚ) (s : CState) (p : Posting) :
    ((complexStep price s p).2).cost_impact_qty
      = specReference p.ptype
          (s.cum_gr + (if p.ptype = PostingType.GR then p.qty else 0))
          (s.cum_ir + (if p.ptype = PostingType.IR then p.qty else 0))
        - s.last := by
  cases p with
  | mk d t q => cases t <;> simp [complexStep, specReference, max_comm]

theorem complexStep_snd_amount (price : ℚ) (s : CState) (p : Posting) :
    ((complexStep price s p).2).cost_impact_amount
      = round2 (((complexStep price s p).2).cost_impact_qty * price) := by
  cases p with
  | mk d t q => cases t <;> simp [complexStep]

theorem complexStep_fst_last_eq_ref (price : ℚ) (s : CState) (p : Posting) :
    ((complexStep price s p).1).last
      = specReference p.ptype
          (s.cum_gr + (if p.ptype = PostingType.GR then p.qty else 0))
          (s.cum_ir + (if p.ptype = PostingType.IR then p.qty else 0)) := by
  rw [complexStep_fst_last, complexStep_snd_qty]
  ring

theorem complexRunAux_length (price : ℚ) (s : CState) (ps : List Posting) :
    (complexRunAux price s ps).length = ps.length := by
  induction ps generalizing s with
  | nil => rfl
  | cons p rest ih => simp [complexRunAux, ih]

theorem specReference_eq_max (t : PostingType) (g i : ℚ) :
    specReference t g i = max g i := by
  cases t
  · show (if g ≥ i then g else max g i) = max g i
    split
    · rename_i h
      exact (max_eq_left h).symm
    · rfl
  · show (if i ≥ g then i else max g i) = max g i
    split
    · rename_i h
      exact (max_eq_right h).symm
    · rfl

theorem complexRunAux_get_spec :
    ∀ (ps : List Posting) (price : ℚ) (s : CState) (k : ℕ) (p : Posting) (r : CIRecord),
      ps.get? k = some p →
      (complexRunAux price s ps).get? k = some r →
      r.cost_impact_qty
          = specReference p.ptype
              (s.cum_gr + qtySum PostingType.GR (ps.take (k+1)))
              (s.cum_ir + qtySum PostingType.IR (ps.take (k+1)))
            - (s.last + impactSum ((complexRunAux price s ps).take k))
        ∧ r.cost_impact_amount = round2 (r.cost_impact_qty * price) := by
  intro ps
  induction ps with
  | nil =>
    intro price s k p r h1 h2
    simp at h1
  | cons p0 rest ih =>
    intro price s k p r h1 h2
    cases k with
    | zero =>
      rw [List.get?_cons_zero] at h1
      rw [complexRunAux, List.get?_cons_zero] at h2
      have hp : p = p0 := (Option.some.inj h1).symm
      subst hp
      have hr : r = (complexStep price s p).2 := (Option.some.inj h2).symm
      subst hr
      constructor
      · rw [complexStep_snd_qty]
        simp [qtySum, impactSum, List.take_succ_cons]
      · exact complexStep_snd_amount price s p
    | succ k =>
      rw [List.get?_cons_succ] at h1
      rw [complexRunAux, List.get?_cons_succ] at h2
      obtain ⟨hq, ha⟩ := ih price (complexStep price s p0).1 k p r h1 h2
      refine ⟨?_, ha⟩
      have hgr : s.cum_gr + qtySum PostingType.GR ((p0 :: rest).take (k+1+1))
          = (complexStep price s p0).1.cum_gr + qtySum PostingType.GR (rest.take (k+1)) := by
        rw [List.take_succ_cons, complexStep_fst_cum_gr]
        simp only [qtySum]
        ring
      have hir : s.cum_ir + qtySum PostingType.IR ((p0 :: rest).take (k+1+1))
          = (complexStep price s p0).1.cum_ir + qtySum PostingType.IR (rest.take (k+1)) := by
        rw [List.take_succ_cons, complexStep_fst_cum_ir]
        simp only [qtySum]
        ring
      have hlast : s.last + impactSum ((complexRunAux price s (p0 :: rest)).take (k+1))
          = (complexStep price s p0).1.last
            + impactSum ((complexRunAux price (complexStep price s p0).1 rest).take k) := by
        rw [complexRunAux, List.take_succ_cons, complexStep_fst_last]
        simp only [impactSum]
        ring
      rw [hgr, hir, hlast]
      exact hq

theorem complexRunAux_running_sum :
    ∀ (ps : List Posting) (price : ℚ) (s : CState) (k : ℕ) (p : Posting),
      ps.get? k = some p →
      s.last + impactSum ((complexRunAux price s ps).take (k+1))
        = specReference p.ptype
            (s.cum_gr + qtySum PostingType.GR (ps.take (k+1)))
            (s.cum_ir + qtySum PostingType.IR (ps.take (k+1))) := by
  intro ps
  induction ps with
  | nil =>
    intro price s k p h1
    simp at h1
  | cons p0 rest ih =>
    intro price s k p h1
    cases k with
    | zero =>
      rw [List.get?_cons_zero] at h1
      have hp : p = p0 := (Option.some.inj h1).symm
      subst hp
      rw [complexRunAux, List.take_succ_cons, List.take_zero, List.take_succ_cons,
        List.take_zero]
      simp only [impactSum, qtySum]
      have := complexStep_fst_last_eq_ref price s p
      rw [complexStep_fst_last] at this
      simpa using this
    | succ k =>
      rw [List.get?_cons_succ] at h1
      have H := ih price (complexStep price s p0).1 k p h1
      rw [complexRunAux, List.take_succ_cons, List.take_succ_cons]
      simp only [impactSum, qtySum]
      rw [complexStep_fst_cum_gr, complexStep_fst_cum_ir, complexStep_fst_last] at H
      calc s.last + (((complexStep price s p0).2).cost_impact_qty
              + impactSum ((complexRunAux price (complexStep price s p0).1 rest).take (k+1)))
          = (complexStep price s p0).1.last
              + impactSum ((complexRunAux price (complexStep price s p0).1 rest).take (k+1)) := by
            rw [complexStep_fst_last]
            ring
        _ = specReference p.ptype
              ((s.cum_gr + (if p0.ptype = PostingType.GR then p0.qty else 0))
                + qtySum PostingType.GR (rest.take (k+1)))
              ((s.cum_ir + (if p0.ptype = PostingType.IR then p0.qty else 0))
                + qtySum PostingType.IR (rest.take (k+1))) := by
            rw [complexStep_fst_last]
            exact H
        _ = specReference p.ptype
              (s.cum_gr + ((if p0.ptype = PostingType.GR then p0.qty else 0)
                + qtySum PostingType.GR (rest.take (k+1))))
              (s.cum_ir + ((if p0.ptype = PostingType.IR then p0.qty else 0)
                + qtySum PostingType.IR (rest.take (k+1)))) := by
            rw [add_assoc, add_assoc]

theorem le_foldl_max_start (l : List ℚ) (a : ℚ) : a ≤ l.foldl max a := by
  induction l generalizing a with
  | nil => exact le_refl a
  | cons b l ih =>
    calc a ≤ max a b := le_max_left a b
      _ ≤ l.foldl max (max a b) := ih (max a b)
      _ = (b :: l).foldl max a := rfl

theorem le_foldl_max_mem (l : List ℚ) : ∀ (a x : ℚ), x ∈ l → x ≤ l.foldl max a := by
  induction l with
  | nil =>
    intro a x hx
    cases hx
  | cons b l ih =>
    intro a x hx
    rcases List.mem_cons.mp hx with h | h
    · subst h
      calc x ≤ max a x := le_max_right a x
        _ ≤ l.foldl max (max a x) := le_foldl_max_start l (max a x)
        _ = (x :: l).foldl max a := rfl
    · exact ih (max a b) x h

/-- C1: for every PO line processed by the Complex algorithm, each
posting yields exactly one Cost Impact Record; the record's
`cost_impact_qty` is the spec's `reference` (just-updated counter if ≥
the other, else `max(cum_gr, cum_ir)`) minus the sum of all previously
emitted `cost_impact_qty` (i.e. `last_recognized`), its
`cost_impact_amount` is `round(cost_impact_qty * unit_price, 2)`; and on
the spec's P1 scenario (price 2, GR 10 day 1, IR 15 day 2, GR 5 day 3)
the emitted quantities are `[10, 5, 0]`. -/
theorem complex_record_formula :
    (∀ (price : ℚ) (ps : List Posting),
        (calculate_complex_cost_impact price ps).length = ps.length)
    ∧ (∀ (price : ℚ) (ps : List Posting) (k : ℕ) (p : Posting) (r : CIRecord),
        ps.get? k = some p →
        (calculate_complex_cost_impact price ps).get? k = some r →
        r.cost_impact_qty
            = specReference p.ptype (qtySum PostingType.GR (ps.take (k+1)))
                (qtySum PostingType.IR (ps.take (k+1)))
              - impactSum ((calculate_complex_cost_impact price ps).take k)
          ∧ r.cost_impact_amount = round2 (r.cost_impact_qty * price))
    ∧ (calculate_complex_cost_impact 2 c1Stream).map (fun r => r.cost_impact_qty)
        = [10, 5, 0] := by
  refine ⟨?_, ?_, ?_⟩
  · intro price ps
    exact complexRunAux_length price ⟨0, 0, 0⟩ ps
  · intro price ps k p r h1 h2
    have H := complexRunAux_get_spec ps price ⟨0, 0, 0⟩ k p r h1 h2
    simpa [calculate_complex_cost_impact] using H
  · norm_num [calculate_complex_cost_impact, complexRunAux, complexStep, c1Stream]

/-- Witness for C1: the record emitted for the day-2 IR posting of the
P1 scenario. -/
theorem complex_record_formula_witness :
    (⟨2, PostingType.IR, 15, 5, 10⟩ : CIRecord).cost_impact_qty
        = specReference PostingType.IR (qtySum PostingType.GR (c1Stream.take 2))
            (qtySum PostingType.IR (c1Stream.take 2))
          - impactSum ((calculate_complex_cost_impact 2 c1Stream).take 1)
      ∧ (⟨2, PostingType.IR, 15, 5, 10⟩ : CIRecord).cost_impact_amount
        = round2 ((⟨2, PostingType.IR, 15, 5, 10⟩ : CIRecord).cost_impact_qty * 2) :=
  complex_record_formula.2.1 2 c1Stream 1 ⟨2, PostingType.IR, 15⟩
    ⟨2, PostingType.IR, 15, 5, 10⟩ rfl
    (by norm_num [calculate_complex_cost_impact, complexRunAux, complexStep, c1Stream,
      round2, pyRound])

/-- C2: after each event of a Complex PO line the chronological running
sum of `cost_impact_qty` equals that event's `reference`, and this
running sum never exceeds the largest `max(cum_gr, cum_ir)` observed at
any point so far in the stream. -/
theorem complex_running_sum_conservation :
    ∀ (price : ℚ) (ps : List Posting) (k : ℕ) (p : Posting),
      ps.get? k = some p →
      impactSum ((calculate_complex_cost_impact price ps).take (k+1))
          = specReference p.ptype (qtySum PostingType.GR (ps.take (k+1)))
              (qtySum PostingType.IR (ps.take (k+1)))
        ∧ impactSum ((calculate_complex_cost_impact price ps).take (k+1))
            ≤ observedHigh ps k := by
  intro price ps k p h1
  have H := complexRunAux_running_sum ps price ⟨0, 0, 0⟩ k p h1
  have H2 : impactSum ((calculate_complex_cost_impact price ps).take (k+1))
      = specReference p.ptype (qtySum PostingType.GR (ps.take (k+1)))
          (qtySum PostingType.IR (ps.take (k+1))) := by
    simpa [calculate_complex_cost_impact] using H
  refine ⟨H2, ?_⟩
  rw [H2, specReference_eq_max]
  unfold observedHigh
  exact le_foldl_max_mem _ _ _
    (List.mem_map.mpr ⟨k, List.mem_range.mpr (Nat.lt_succ_self k), rfl⟩)

/-- Witness for C2: the P1 scenario after its third event. -/
theorem complex_running_sum_conservation_witness :
    impactSum ((calculate_complex_cost_impact 2 c2Stream).take 3)
        = specReference PostingType.GR (qtySum PostingType.GR (c2Stream.take 3))
            (qtySum PostingType.IR (c2Stream.take 3))
      ∧ impactSum ((calculate_complex_cost_impact 2 c2Stream).take 3)
          ≤ observedHigh c2Stream 2 :=
  complex_running_sum_conservation 2 c2Stream 2 ⟨3, PostingType.GR, 5⟩ rfl

theorem simple_filter_eq :
    ∀ (gr : List GRPosting) (ids : List String) (id : String),
      ids.contains id = true →
      (calculate_simple_cost_impact gr ids).filter (fun r => r.po_line_id == id)
        = (gr.filter (fun p => p.po_line_id == id)).map
            (fun p => ⟨p.po_line_id, p.date, PostingType.GR, p.qty, p.qty, p.amount⟩) := by
  intro gr ids id hid
  induction gr with
  | nil => rfl
  | cons p rest ih =>
    simp only [calculate_simple_cost_impact] at ih ⊢
    by_cases hin : ids.contains p.po_line_id = true
    · by_cases hpid : (p.po_line_id == id) = true
      · simp only [List.filter_cons, hin, if_true, List.map_cons, hpid]
        exact congrArg _ ih
      · have hpid2 : (p.po_line_id == id) = false := by simpa using hpid
        simp only [List.filter_cons, hin, if_true, List.map_cons, hpid2,
          Bool.false_eq_true, if_false]
        exact ih
    · have hin2 : ids.contains p.po_line_id = false := by simpa using hin
      have hpid2 : (p.po_line_id == id) = false := by
        by_contra hne
        have h : (p.po_line_id == id) = true := by
          revert hne
          cases (p.po_line_id == id) <;> simp
        have he : p.po_line_id = id := by simpa using h
        rw [he, hid] at hin2
        simp at hin2
      simp only [List.filter_cons, hin2, hpid2, Bool.false_eq_true, if_false]
      exact ih

/-- C7: for a Simple PO line, each GR posting yields exactly one Cost
Impact Record carrying the posting's quantity as `cost_impact_qty` and
the posting's own recorded `GR Amount` as `cost_impact_amount` (no
unit-price multiplication); the Simple branch consumes only the GR table
(so IR postings yield nothing and every record has posting type GR), and
the sum of `cost_impact_qty` over the line's records equals the sum of
its GR posting quantities exactly. -/
theorem simple_passthrough :
    ∀ (gr : List GRPosting) (ids : List String) (id : String),
      ids.contains id = true →
      ((calculate_simple_cost_impact gr ids).filter (fun r => r.po_line_id == id)
          = (gr.filter (fun p => p.po_line_id == id)).map
              (fun p => ⟨p.po_line_id, p.date, PostingType.GR, p.qty, p.qty, p.amount⟩))
        ∧ (((calculate_simple_cost_impact gr ids).filter
              (fun r => r.po_line_id == id)).map (fun r => r.cost_impact_qty)).sum
            = ((gr.filter (fun p => p.po_line_id == id)).map (fun p => p.qty)).sum
        ∧ ∀ r ∈ calculate_simple_cost_impact gr ids,
            r.posting_type = PostingType.GR ∧ r.cost_impact_qty = r.posting_qty := by
  intro gr ids id hid
  have h1 := simple_filter_eq gr ids id hid
  refine ⟨h1, ?_, ?_⟩
  · rw [h1, List.map_map]
    rfl
  · intro r hr
    simp only [calculate_simple_cost_impact, List.mem_map] at hr
    obtain ⟨p, hp, rfl⟩ := hr
    exact ⟨rfl, rfl⟩

/-- Witness for C7: GR posting of qty 4 and amount 7 on the Simple line
`"S1"`; the unrelated line `"T1"` is filtered away. -/
theorem simple_passthrough_witness :
    ((calculate_simple_cost_impact c7GRTable ["S1"]).filter
          (fun r => r.po_line_id == "S1")
        = (c7GRTable.filter (fun p => p.po_line_id == "S1")).map
            (fun p => ⟨p.po_line_id, p.date, PostingType.GR, p.qty, p.qty, p.amount⟩))
      ∧ (((calculate_simple_cost_impact c7GRTable ["S1"]).filter
            (fun r => r.po_line_id == "S1")).map (fun r => r.cost_impact_qty)).sum
          = ((c7GRTable.filter (fun p => p.po_line_id == "S1")).map (fun p => p.qty)).sum
      ∧ ∀ r ∈ calculate_simple_cost_impact c7GRTable ["S1"],
          r.posting_type = PostingType.GR ∧ r.cost_impact_qty = r.posting_qty :=
  simple_passthrough c7GRTable ["S1"] "S1" (by decide)

theorem qtySum_perm (t : PostingType) {l l' : List Posting} (h : l.Perm l') :
    qtySum t l = qtySum t l' := by
  induction h with
  | nil => rfl
  | cons x _ ih => simp [qtySum, ih]
  | swap x y l =>
    simp only [qtySum]
    ring
  | trans _ _ ih1 ih2 => rw [ih1, ih2]

theorem qtySum_append (t : PostingType) (l1 l2 : List Posting) :
    qtySum t (l1 ++ l2) = qtySum t l1 + qtySum t l2 := by
  induction l1 with
  | nil => simp [qtySum]
  | cons p rest ih =>
    simp only [List.cons_append, qtySum, List.append_eq]
    rw [ih]
    ring

theorem qtySum_GR_map_gr (l : List GRPosting) :
    qtySum PostingType.GR (l.map grToPosting) = (l.map (fun p => p.qty)).sum := by
  induction l with
  | nil => rfl
  | cons p rest ih => simp [qtySum, grToPosting, ih]

theorem qtySum_IR_map_gr (l : List GRPosting) :
    qtySum PostingType.IR (l.map grToPosting) = 0 := by
  induction l with
  | nil => rfl
  | cons p rest ih => simp [qtySum, grToPosting, ih]

theorem qtySum_GR_map_ir (l : List IRPosting) :
    qtySum PostingType.GR (l.map irToPosting) = 0 := by
  induction l with
  | nil => rfl
  | cons p rest ih => simp [qtySum, irToPosting, ih]

theorem qtySum_IR_map_ir (l : List IRPosting) :
    qtySum PostingType.IR (l.map irToPosting) = (l.map (fun p => p.qty)).sum := by
  induction l with
  | nil => rfl
  | cons p rest ih => simp [qtySum, irToPosting, ih]

theorem merged_qtySum_GR (gr : List GRPosting) (ir : List IRPosting) (id : String) :
    qtySum PostingType.GR (mergedPostingsFor gr ir id) = grQtyTotal gr id := by
  unfold mergedPostingsFor grQtyTotal
  rw [qtySum_perm _ (List.perm_insertionSort postingOrder _)]
  rw [qtySum_append, qtySum_GR_map_gr, qtySum_GR_map_ir]
  ring

theorem merged_qtySum_IR (gr : List GRPosting) (ir : List IRPosting) (id : String) :
    qtySum PostingType.IR (mergedPostingsFor gr ir id) = irQtyTotal ir id := by
  unfold mergedPostingsFor irQtyTotal
  rw [qtySum_perm _ (List.perm_insertionSort postingOrder _)]
  rw [qtySum_append, qtySum_IR_map_gr, qtySum_IR_map_ir]
  ring

theorem grirStep_cum_gr (s : GState) (p : Posting) :
    (grirStep s p).cum_gr = s.cum_gr + (if p.ptype = PostingType.GR then p.qty else 0) := by
  cases p with
  | mk d t q => cases t <;> simp [grirStep]

theorem grirStep_cum_ir (s : GState) (p : Posting) :
    (grirStep s p).cum_ir = s.cum_ir + (if p.ptype = PostingType.IR then p.qty else 0) := by
  cases p with
  | mk d t q => cases t <;> simp [grirStep]

theorem grirFold_cum :
    ∀ (ps : List Posting) (s : GState),
      ((ps.foldl grirStep s).cum_gr = s.cum_gr + qtySum PostingType.GR ps)
      ∧ ((ps.foldl grirStep s).cum_ir = s.cum_ir + qtySum PostingType.IR ps) := by
  intro ps
  induction ps with
  | nil =>
    intro s
    simp [qtySum]
  | cons p rest ih =>
    intro s
    obtain ⟨ihg, ihi⟩ := ih (grirStep s p)
    rw [List.foldl_cons]
    constructor
    · rw [ihg, grirStep_cum_gr]
      simp only [qtySum]
      ring
    · rw [ihi, grirStep_cum_ir]
      simp only [qtySum]
      ring

theorem grirStep_first_iff (s : GState) (p : Posting) :
    ((grirStep s p).first ≠ none ↔ (grirStep s p).cum_ir > (grirStep s p).cum_gr) := by
  cases p with
  | mk d t q =>
    cases t
    · by_cases hge : s.cum_gr + q ≥ s.cum_ir
      · simp [grirStep, hge]
      · have hlt : s.cum_ir > s.cum_gr + q := lt_of_not_ge hge
        by_cases hfst : s.first = none
        · simp [grirStep, hge, hfst, hlt]
        · simp [grirStep, hge, hfst, hlt]
    · by_cases hge : s.cum_gr ≥ s.cum_ir + q
      · simp [grirStep, hge]
      · have hlt : s.cum_ir + q > s.cum_gr := lt_of_not_ge hge
        by_cases hfst : s.first = none
        · simp [grirStep, hge, hfst, hlt]
        · simp [grirStep, hge, hfst, hlt]

theorem grirFold_first_iff :
    ∀ (ps : List Posting) (s : GState),
      (s.first ≠ none ↔ s.cum_ir > s.cum_gr) →
      ((ps.foldl grirStep s).first ≠ none
        ↔ (ps.foldl grirStep s).cum_ir > (ps.foldl grirStep s).cum_gr) := by
  intro ps
  induction ps with
  | nil =>
    intro s h
    exact h
  | cons p rest ih =>
    intro s _
    exact ih (grirStep s p) (grirStep_first_iff s p)

theorem grirStep_first_cases (s : GState) (p : Posting) :
    (grirStep s p).first = s.first ∨ (grirStep s p).first = none
      ∨ (grirStep s p).first = some p.date := by
  cases p with
  | mk d t q =>
    cases t
    · by_cases hge : s.cum_gr + q ≥ s.cum_ir
      · right
        left
        simp [grirStep, hge]
      · by_cases hc : s.cum_ir > s.cum_gr + q ∧ s.first = none
        · right
          right
          simp [grirStep, hge, hc]
        · left
          simp [grirStep, hge, hc]
    · by_cases hge : s.cum_gr ≥ s.cum_ir + q
      · right
        left
        simp [grirStep, hge]
      · by_cases hc : s.cum_ir + q > s.cum_gr ∧ s.first = none
        · right
          right
          simp [grirStep, hge, hc]
        · left
          simp [grirStep, hge, hc]

theorem grirFold_first_mem :
    ∀ (ps : List Posting) (s : GState) (d : ℤ),
      (ps.foldl grirStep s).first = some d →
      s.first = some d ∨ d ∈ ps.map Posting.date := by
  intro ps
  induction ps with
  | nil =>
    intro s d h
    exact Or.inl h
  | cons p rest ih =>
    intro s d h
    rw [List.foldl_cons] at h
    rcases ih (grirStep s p) d h with h1 | h1
    · rcases grirStep_first_cases s p with h2 | h2 | h2
      · rw [h2] at h1
        exact Or.inl h1
      · rw [h2] at h1
        cases h1
      · rw [h2] at h1
        have : d = p.date := (Option.some.inj h1).symm
        subst this
        right
        simp
    · right
      simp [h1]

theorem grirLineResult_char :
    ∀ (id : String) (price : ℚ) (snapshot : ℤ) (ps : List Posting) (r : GRIRRecord),
      grirLineResult id price snapshot ps = some r →
      (ps.foldl grirStep ⟨0, 0, none⟩).cum_ir - (ps.foldl grirStep ⟨0, 0, none⟩).cum_gr > 0
      ∧ r.po_line_id = id
      ∧ r.grir_qty
          = round4 ((ps.foldl grirStep ⟨0, 0, none⟩).cum_ir
              - (ps.foldl grirStep ⟨0, 0, none⟩).cum_gr)
      ∧ r.first_exposure_date = (ps.foldl grirStep ⟨0, 0, none⟩).first
      ∧ r.days_open = (match (ps.foldl grirStep ⟨0, 0, none⟩).first with
          | some d => snapshot - d
          | none => 0)
      ∧ r.time_bucket = categorize_time_bucket r.days_open
      ∧ r.snapshot_date = snapshot := by
  intro id price snapshot ps r h
  simp only [grirLineResult] at h
  by_cases hq : (ps.foldl grirStep ⟨0, 0, none⟩).cum_ir
      - (ps.foldl grirStep ⟨0, 0, none⟩).cum_gr > 0
  · rw [if_pos hq] at h
    have hr := (Option.some.inj h).symm
    subst hr
    exact ⟨hq, rfl, rfl, rfl, rfl, rfl, rfl⟩
  · rw [if_neg hq] at h
    cases h

theorem pyRound_nonneg (x : ℚ) (h : 0 ≤ x) : 0 ≤ pyRound x := by
  unfold pyRound
  split_ifs with h1 h2
  · exact Int.floor_nonneg.mpr h
  · have := Int.floor_nonneg.mpr h
    omega
  · rw [round_eq]
    exact Int.floor_nonneg.mpr (by linarith)

theorem round4_nonneg (x : ℚ) (h : 0 ≤ x) : 0 ≤ round4 x := by
  unfold round4
  have h1 : (0 : ℤ) ≤ pyRound (x * 10000) := pyRound_nonneg _ (by linarith)
  have h2 : (0 : ℚ) ≤ (pyRound (x * 10000) : ℚ) := by exact_mod_cast h1
  positivity

theorem mem_get_simple_po_ids (po : List POLine) (id : String) :
    id ∈ get_simple_po_ids po
      ↔ ∃ line ∈ po, line.po_line_id = id
          ∧ line.vendor_category = "GLD"
          ∧ line.account_assignment_category ∈ SIMPLE_ACCOUNT_CATEGORIES
          ∧ line.receipt_status ≠ "CLOSED PO" := by
  unfold get_simple_po_ids isSimplePOLine SIMPLE_VENDOR_CATEGORY
  rw [List.mem_dedup, List.mem_map]
  constructor
  · rintro ⟨line, hline, rfl⟩
    rw [List.mem_filter] at hline
    obtain ⟨hmem, hcond⟩ := hline
    simp only [Bool.and_eq_true, beq_iff_eq, bne_iff_ne] at hcond
    refine ⟨line, hmem, rfl, hcond.1.1, ?_, hcond.2⟩
    have := hcond.1.2
    simpa [SIMPLE_ACCOUNT_CATEGORIES] using this
  · rintro ⟨line, hmem, rfl, hv, hc, hs⟩
    refine ⟨line, ?_, rfl⟩
    rw [List.mem_filter]
    refine ⟨hmem, ?_⟩
    simp only [Bool.and_eq_true, beq_iff_eq, bne_iff_ne]
    refine ⟨⟨hv, ?_⟩, hs⟩
    simpa [SIMPLE_ACCOUNT_CATEGORIES] using hc

theorem mem_filterMap_grir_id (ids : List String) (f : String → Option GRIRRecord)
    (hf : ∀ id r, f id = some r → r.po_line_id = id) :
    ∀ r ∈ ids.filterMap f, r.po_line_id ∈ ids := by
  intro r hr
  obtain ⟨id, hid, hfid⟩ := List.mem_filterMap.mp hr
  rw [hf id r hfid]
  exact hid

theorem filterMap_ids_nodup :
    ∀ (ids : List String) (f : String → Option GRIRRecord),
      ids.Nodup → (∀ id r, f id = some r → r.po_line_id = id) →
      ((ids.filterMap f).map (fun r => r.po_line_id)).Nodup := by
  intro ids
  induction ids with
  | nil =>
    intro f _ _
    simp
  | cons id rest ih =>
    intro f hnd hf
    have hid : id ∉ rest := (List.nodup_cons.mp hnd).1
    have hnd1 : rest.Nodup := (List.nodup_cons.mp hnd).2
    rw [List.filterMap_cons]
    cases hfid : f id with
    | none => exact ih f hnd1 hf
    | some r =>
      rw [List.map_cons, List.nodup_cons]
      constructor
      · intro hmem
        obtain ⟨r', hr', he⟩ := List.mem_map.mp hmem
        have h1 : r'.po_line_id ∈ rest := mem_filterMap_grir_id rest f hf r' hr'
        rw [he, hf id r hfid] at h1
        exact hid h1
      · exact ih f hnd1 hf

theorem merged_fold_cum (gr : List GRPosting) (ir : List IRPosting) (id : String) :
    ((mergedPostingsFor gr ir id).foldl grirStep ⟨0, 0, none⟩).cum_gr = grQtyTotal gr id
    ∧ ((mergedPostingsFor gr ir id).foldl grirStep ⟨0, 0, none⟩).cum_ir
        = irQtyTotal ir id := by
  obtain ⟨hg, hi⟩ := grirFold_cum (mergedPostingsFor gr ir id) ⟨0, 0, none⟩
  constructor
  · rw [hg, merged_qtySum_GR]
    simp
  · rw [hi, merged_qtySum_IR]
    simp

theorem merged_dates_sub (gr : List GRPosting) (ir : List IRPosting) (id : String) (d : ℤ) :
    d ∈ (mergedPostingsFor gr ir id).map Posting.date →
    (∃ p ∈ gr, p.date = d) ∨ (∃ p ∈ ir, p.date = d) := by
  intro hd
  obtain ⟨p, hp, hpd⟩ := List.mem_map.mp hd
  unfold mergedPostingsFor at hp
  have hp2 := (List.perm_insertionSort postingOrder _).subset hp
  rcases List.mem_append.mp hp2 with h | h
  · obtain ⟨q, hq, rfl⟩ := List.mem_map.mp h
    exact Or.inl ⟨q, (List.mem_filter.mp hq).1, hpd⟩
  · obtain ⟨q, hq, rfl⟩ := List.mem_map.mp h
    exact Or.inr ⟨q, (List.mem_filter.mp hq).1, hpd⟩

theorem categorize_time_bucket_spec (days : ℤ) :
    (days ≤ 30 → categorize_time_bucket days = "<1 month")
    ∧ (30 < days → days ≤ 90 → categorize_time_bucket days = "1-3 months")
    ∧ (90 < days → days ≤ 180 → categorize_time_bucket days = "3-6 months")
    ∧ (180 < days → days ≤ 365 → categorize_time_bucket days = "6-12 months")
    ∧ (365 < days → categorize_time_bucket days = ">1 year") := by
  refine ⟨?_, ?_, ?_, ?_, ?_⟩
  · intro h1
    simp [categorize_time_bucket, GRIR_TIME_BUCKETS, List.find?, decide_eq_true h1]
  · intro h0 h1
    have hn : ¬(days ≤ 30) := by omega
    simp [categorize_time_bucket, GRIR_TIME_BUCKETS, List.find?,
      decide_eq_false hn, decide_eq_true h1]
  · intro h0 h1
    have hn1 : ¬(days ≤ 30) := by omega
    have hn2 : ¬(days ≤ 90) := by omega
    simp [categorize_time_bucket, GRIR_TIME_BUCKETS, List.find?,
      decide_eq_false hn1, decide_eq_false hn2, decide_eq_true h1]
  · intro h0 h1
    have hn1 : ¬(days ≤ 30) := by omega
    have hn2 : ¬(days ≤ 90) := by omega
    have hn3 : ¬(days ≤ 180) := by omega
    simp [categorize_time_bucket, GRIR_TIME_BUCKETS, List.find?,
      decide_eq_false hn1, decide_eq_false hn2, decide_eq_false hn3, decide_eq_true h1]
  · intro h0
    have hn1 : ¬(days ≤ 30) := by omega
    have hn2 : ¬(days ≤ 90) := by omega
    have hn3 : ¬(days ≤ 180) := by omega
    have hn4 : ¬(days ≤ 365) := by omega
    simp [categorize_time_bucket, GRIR_TIME_BUCKETS, GRIR_TIME_BUCKET_MAX, List.find?,
      decide_eq_false hn1, decide_eq_false hn2, decide_eq_false hn3, decide_eq_false hn4]

/-- C3: in the GRIR walk, whenever `cum_ir` exceeds `cum_gr` with
`first_exposure_date` unset it is set to that posting's date, and
whenever `cum_gr >= cum_ir` after a posting it is cleared back to unset;
on the spec's P2 scenario (IR 10 day 1, GR 10 day 2, IR 3 day 3) the
final record has `grir_qty = 3` and `first_exposure_date` = day 3. -/
theorem grir_first_exposure_reset :
    (∀ (s : GState) (p : Posting),
        ((grirStep s p).cum_ir > (grirStep s p).cum_gr → s.first = none →
          (grirStep s p).first = some p.date)
        ∧ ((grirStep s p).cum_gr ≥ (grirStep s p).cum_ir →
          (grirStep s p).first = none))
    ∧ (calculate_grir_exposures c3POTable c3GRTable c3IRTable 10).map
        (fun r => (r.grir_qty, r.first_exposure_date)) = [(3, some 3)] := by
  constructor
  · intro s p
    cases p with
    | mk d t q =>
      cases t
      · constructor
        · intro hgt hnone
          simp [grirStep] at hgt
          simp [grirStep, hnone, hgt, not_le.mpr hgt]
        · intro hge
          simp [grirStep] at hge
          simp [grirStep, hge]
      · constructor
        · intro hgt hnone
          simp [grirStep] at hgt
          simp [grirStep, hnone, hgt, not_le.mpr hgt]
        · intro hge
          simp [grirStep] at hge
          simp [grirStep, hge]
  · norm_num [calculate_grir_exposures, get_simple_po_ids, isSimplePOLine,
      SIMPLE_VENDOR_CATEGORY, SIMPLE_ACCOUNT_CATEGORIES, get_unit_prices,
      mergedPostingsFor, grToPosting, irToPosting, postingOrder, typeRank,
      List.insertionSort, List.orderedInsert, grirLineResult, grirStep,
      categorize_time_bucket, GRIR_TIME_BUCKETS, GRIR_TIME_BUCKET_MAX,
      c3POTable, c3GRTable, c3IRTable, List.dedup, List.filterMap,
      round4, round2, pyRound]

/-- Witness for C3: the first IR posting opens exposure on day 1; a GR
posting that catches up clears the date. -/
theorem grir_first_exposure_reset_witness :
    (grirStep ⟨0, 0, none⟩ ⟨1, PostingType.IR, 10⟩).first = some 1
    ∧ (grirStep ⟨0, 10, some 1⟩ ⟨2, PostingType.GR, 10⟩).first = none :=
  ⟨(grir_first_exposure_reset.1 ⟨0, 0, none⟩ ⟨1, PostingType.IR, 10⟩).1
      (by norm_num [grirStep]) rfl,
   (grir_first_exposure_reset.1 ⟨0, 10, some 1⟩ ⟨2, PostingType.GR, 10⟩).2
      (by norm_num [grirStep])⟩

/-- C10: after every GRIR step, `first_exposure_date` is set iff
`cum_ir > cum_gr`; consequently every emitted GRIR record carries a
non-null `first_exposure_date` and its `days_open` is
`snapshot - first_exposure_date` (the `days_open = 0` fallback is
unreachable in emitted records). -/
theorem grir_first_exposure_invariant :
    (∀ (s : GState) (p : Posting),
        ((grirStep s p).first ≠ none ↔ (grirStep s p).cum_ir > (grirStep s p).cum_gr))
    ∧ ∀ (po : List POLine) (gr : List GRPosting) (ir : List IRPosting) (snapshot : ℤ),
        ∀ r ∈ calculate_grir_exposures po gr ir snapshot,
          ∃ d, r.first_exposure_date = some d ∧ r.days_open = snapshot - d := by
  refine ⟨grirStep_first_iff, ?_⟩
  intro po gr ir snapshot r hr
  obtain ⟨id, _, hres⟩ := List.mem_filterMap.mp hr
  obtain ⟨hq, _, _, hfirst, hdays, _, _⟩ := grirLineResult_char _ _ _ _ _ hres
  have hiff := grirFold_first_iff (mergedPostingsFor gr ir id) ⟨0, 0, none⟩ (by simp)
  have hsome : ((mergedPostingsFor gr ir id).foldl grirStep ⟨0, 0, none⟩).first ≠ none :=
    hiff.mpr (by linarith)
  obtain ⟨d, hd⟩ := Option.ne_none_iff_exists'.mp hsome
  refine ⟨d, ?_, ?_⟩
  · rw [hfirst, hd]
  · rw [hdays, hd]

/-- Witness for C10: the record emitted for a single IR posting of qty 5
on day 1, snapshot day 10. -/
theorem grir_first_exposure_invariant_witness :
    ∃ d, (⟨"U", 5, 5, some 1, 9, "<1 month", 10⟩ : GRIRRecord).first_exposure_date
          = some d
      ∧ (⟨"U", 5, 5, some 1, 9, "<1 month", 10⟩ : GRIRRecord).days_open = 10 - d :=
  grir_first_exposure_invariant.2 c10POTable [] c10IRTable 10
    ⟨"U", 5, 5, some 1, 9, "<1 month", 10⟩
    (by
      have h : calculate_grir_exposures c10POTable [] c10IRTable 10
          = [⟨"U", 5, 5, some 1, 9, "<1 month", 10⟩] := by
        norm_num [calculate_grir_exposures, get_simple_po_ids, isSimplePOLine,
          SIMPLE_VENDOR_CATEGORY, SIMPLE_ACCOUNT_CATEGORIES, get_unit_prices,
          mergedPostingsFor, grToPosting, irToPosting, postingOrder, typeRank,
          List.insertionSort, List.orderedInsert, grirLineResult, grirStep,
          categorize_time_bucket, GRIR_TIME_BUCKETS, GRIR_TIME_BUCKET_MAX,
          c10POTable, c10IRTable, List.dedup, List.filterMap,
          round4, round2, pyRound]
      rw [h]
      exact List.mem_singleton_self _)

/-- C4 (amended): every emitted GRIR record belongs to a PO line with
vendor category `GLD`, account category in `{K,P,S,V}` and receipt
status other than `CLOSED PO`; each PO line appears at most once; the
pre-rounding exposure `cum_ir - cum_gr` of the emitted line is strictly
positive (so no line with final `cum_ir <= cum_gr` appears), and the
stored `grir_qty` — the exposure rounded to 4 decimals — is ≥ 0 but can
be 0 for exposures below 0.00005. -/
theorem grir_output_invariants :
    ∀ (po : List POLine) (gr : List GRPosting) (ir : List IRPosting) (snapshot : ℤ),
      (((calculate_grir_exposures po gr ir snapshot).map (fun r => r.po_line_id)).Nodup)
      ∧ ∀ r ∈ calculate_grir_exposures po gr ir snapshot,
          0 ≤ r.grir_qty
          ∧ irQtyTotal ir r.po_line_id - grQtyTotal gr r.po_line_id > 0
          ∧ ∃ line ∈ po, line.po_line_id = r.po_line_id
              ∧ line.vendor_category = "GLD"
              ∧ line.account_assignment_category ∈ SIMPLE_ACCOUNT_CATEGORIES
              ∧ line.receipt_status ≠ "CLOSED PO" := by
  intro po gr ir snapshot
  constructor
  · apply filterMap_ids_nodup
    · exact List.nodup_dedup _
    · intro id r h
      exact (grirLineResult_char id _ snapshot _ r h).2.1
  · intro r hr
    obtain ⟨id, hid, hres⟩ := List.mem_filterMap.mp hr
    obtain ⟨hq, hrid, hqty, _, _, _, _⟩ := grirLineResult_char _ _ _ _ _ hres
    refine ⟨?_, ?_, ?_⟩
    · rw [hqty]
      exact round4_nonneg _ (le_of_lt hq)
    · rw [hrid]
      rw [(merged_fold_cum gr ir id).1, (merged_fold_cum gr ir id).2] at hq
      exact hq
    · obtain ⟨line, hline, hlid, hv, hc, hs⟩ := (mem_get_simple_po_ids po id).mp hid
      refine ⟨line, hline, ?_, hv, hc, hs⟩
      rw [hrid]
      exact hlid

/-- Counterexample for C4 as stated: an IR posting of quantity 0.00004
produces a positive exposure, so a record is emitted, but its stored
`grir_qty = round(0.00004, 4) = 0`, not `> 0`. -/
theorem grir_qty_rounded_to_zero :
    (calculate_grir_exposures c4POTable [] c4IRTable 10).map (fun r => r.grir_qty)
      = [0] := by
  norm_num [calculate_grir_exposures, get_simple_po_ids, isSimplePOLine,
    SIMPLE_VENDOR_CATEGORY, SIMPLE_ACCOUNT_CATEGORIES, get_unit_prices,
    mergedPostingsFor, grToPosting, irToPosting, postingOrder, typeRank,
    List.insertionSort, List.orderedInsert, grirLineResult, grirStep,
    categorize_time_bucket, GRIR_TIME_BUCKETS, GRIR_TIME_BUCKET_MAX,
    c4POTable, c4IRTable, List.dedup, List.filterMap,
    round4, round2, pyRound]

/-- Witness for C4: the spec's boundary example (single IR of qty 5 on
day 1, unit price 10, snapshot day 10). -/
theorem grir_output_invariants_witness :
    (((calculate_grir_exposures c4wPOTable [] c4wIRTable 10).map
        (fun r => r.po_line_id)).Nodup)
    ∧ (0 ≤ (⟨"W", 5, 50, some 1, 9, "<1 month", 10⟩ : GRIRRecord).grir_qty
        ∧ irQtyTotal c4wIRTable "W" - grQtyTotal [] "W" > 0
        ∧ ∃ line ∈ c4wPOTable, line.po_line_id = "W"
            ∧ line.vendor_category = "GLD"
            ∧ line.account_assignment_category ∈ SIMPLE_ACCOUNT_CATEGORIES
            ∧ line.receipt_status ≠ "CLOSED PO") := by
  have h := grir_output_invariants c4wPOTable [] c4wIRTable 10
  refine ⟨h.1, ?_⟩
  have hmem : (⟨"W", 5, 50, some 1, 9, "<1 month", 10⟩ : GRIRRecord)
      ∈ calculate_grir_exposures c4wPOTable [] c4wIRTable 10 := by
    have he : calculate_grir_exposures c4wPOTable [] c4wIRTable 10
        = [⟨"W", 5, 50, some 1, 9, "<1 month", 10⟩] := by
      norm_num [calculate_grir_exposures, get_simple_po_ids, isSimplePOLine,
        SIMPLE_VENDOR_CATEGORY, SIMPLE_ACCOUNT_CATEGORIES, get_unit_prices,
        mergedPostingsFor, grToPosting, irToPosting, postingOrder, typeRank,
        List.insertionSort, List.orderedInsert, grirLineResult, grirStep,
        categorize_time_bucket, GRIR_TIME_BUCKETS, GRIR_TIME_BUCKET_MAX,
        c4wPOTable, c4wIRTable, List.dedup, List.filterMap,
        round4, round2, pyRound]
    rw [he]
    exact List.mem_singleton_self _
  exact h.2 _ hmem

/-- C6 (amended): an eligible PO line whose stream has no IR postings
and whose total GR quantity is ≥ 0 never appears in the GRIR output;
with a negative total GR quantity (pure reversals) the exposure
`0 - cum_gr` is positive and a record IS emitted, so the claim's
quantification over negative quantities fails. -/
theorem only_gr_no_exposure :
    ∀ (po : List POLine) (gr : List GRPosting) (ir : List IRPosting) (snapshot : ℤ)
      (id : String),
      ir.filter (fun p => p.po_line_id == id) = [] →
      0 ≤ grQtyTotal gr id →
      (calculate_grir_exposures po gr ir snapshot).filter
        (fun r => r.po_line_id == id) = [] := by
  intro po gr ir snapshot id hir hgr
  rw [List.filter_eq_nil_iff]
  intro r hr hpid
  obtain ⟨id2, hid2, hres⟩ := List.mem_filterMap.mp hr
  have hchar := grirLineResult_char _ _ _ _ _ hres
  have hq := hchar.1
  have hrid := hchar.2.1
  have heq : id2 = id := by
    rw [← hrid]
    simpa using hpid
  subst heq
  rw [(merged_fold_cum gr ir id2).1, (merged_fold_cum gr ir id2).2] at hq
  have hirz : irQtyTotal ir id2 = 0 := by
    unfold irQtyTotal
    rw [hir]
    rfl
  rw [hirz] at hq
  linarith

/-- Counterexample for C6 as stated: a single negative GR posting
(qty -5) and no IR postings still emits a GRIR record for the line. -/
theorem only_gr_emits_on_negative_reversal :
    (calculate_grir_exposures c6POTable c6GRTable [] 10).map (fun r => r.po_line_id)
      = ["Q"] := by
  norm_num [calculate_grir_exposures, get_simple_po_ids, isSimplePOLine,
    SIMPLE_VENDOR_CATEGORY, SIMPLE_ACCOUNT_CATEGORIES, get_unit_prices,
    mergedPostingsFor, grToPosting, irToPosting, postingOrder, typeRank,
    List.insertionSort, List.orderedInsert, grirLineResult, grirStep,
    categorize_time_bucket, GRIR_TIME_BUCKETS, GRIR_TIME_BUCKET_MAX,
    c6POTable, c6GRTable, List.dedup, List.filterMap,
    round4, round2, pyRound]

/-- Witness for C6: a single positive GR posting of qty 5, no IR. -/
theorem only_gr_no_exposure_witness :
    (calculate_grir_exposures c6wPOTable c6wGRTable [] 10).filter
      (fun r => r.po_line_id == "Q") = [] :=
  only_gr_no_exposure c6wPOTable c6wGRTable [] 10 "Q" rfl
    (by norm_num [grQtyTotal, c6wGRTable])

/-- C8 (amended): for every emitted GRIR record, `days_open` equals
`snapshot_date - first_exposure_date` when the date is set and 0
otherwise; when every posting date is on or before the snapshot date it
is ≥ 0 (a posting dated after the snapshot yields a negative value);
`time_bucket` is the label of the smallest threshold of
`{30, 90, 180, 365}` that `days_open` is ≤ to, and `>1 year` above
365. -/
theorem grir_days_open_bucket :
    ∀ (po : List POLine) (gr : List GRPosting) (ir : List IRPosting) (snapshot : ℤ),
      (∀ p ∈ gr, p.date ≤ snapshot) →
      (∀ p ∈ ir, p.date ≤ snapshot) →
      ∀ r ∈ calculate_grir_exposures po gr ir snapshot,
        r.days_open = (match r.first_exposure_date with
            | some d => snapshot - d
            | none => 0)
        ∧ 0 ≤ r.days_open
        ∧ (r.days_open ≤ 30 → r.time_bucket = "<1 month")
        ∧ (30 < r.days_open → r.days_open ≤ 90 → r.time_bucket = "1-3 months")
        ∧ (90 < r.days_open → r.days_open ≤ 180 → r.time_bucket = "3-6 months")
        ∧ (180 < r.days_open → r.days_open ≤ 365 → r.time_bucket = "6-12 months")
        ∧ (365 < r.days_open → r.time_bucket = ">1 year") := by
  intro po gr ir snapshot hgr hir r hr
  obtain ⟨id, hid, hres⟩ := List.mem_filterMap.mp hr
  obtain ⟨hq, hrid, hqty, hfirst, hdays, hbucket, hsnap⟩ :=
    grirLineResult_char _ _ _ _ _ hres
  have hdo : r.days_open = (match r.first_exposure_date with
      | some d => snapshot - d
      | none => 0) := by
    rw [hfirst]
    exact hdays
  have hspec := categorize_time_bucket_spec r.days_open
  refine ⟨hdo, ?_,
    fun h => by rw [hbucket]; exact hspec.1 h,
    fun h0 h1 => by rw [hbucket]; exact hspec.2.1 h0 h1,
    fun h0 h1 => by rw [hbucket]; exact hspec.2.2.1 h0 h1,
    fun h0 h1 => by rw [hbucket]; exact hspec.2.2.2.1 h0 h1,
    fun h0 => by rw [hbucket]; exact hspec.2.2.2.2 h0⟩
  rw [hdo]
  cases hf : r.first_exposure_date with
  | none => simp
  | some d =>
    show 0 ≤ snapshot - d
    rw [hfirst] at hf
    rcases grirFold_first_mem _ _ _ hf with h | h
    · cases h
    · rcases merged_dates_sub gr ir id d h with ⟨p, hp, hpd⟩ | ⟨p, hp, hpd⟩
      · have := hgr p hp
        omega
      · have := hir p hp
        omega

/-- Counterexample for C8 as stated: an IR posting dated day 11 with
snapshot day 10 emits a record with `days_open = -1 < 0`. -/
theorem grir_days_open_negative :
    (calculate_grir_exposures c8POTable [] c8IRTable 10).map (fun r => r.days_open)
      = [-1] := by
  norm_num [calculate_grir_exposures, get_simple_po_ids, isSimplePOLine,
    SIMPLE_VENDOR_CATEGORY, SIMPLE_ACCOUNT_CATEGORIES, get_unit_prices,
    mergedPostingsFor, grToPosting, irToPosting, postingOrder, typeRank,
    List.insertionSort, List.orderedInsert, grirLineResult, grirStep,
    categorize_time_bucket, GRIR_TIME_BUCKETS, GRIR_TIME_BUCKET_MAX,
    c8POTable, c8IRTable, List.dedup, List.filterMap,
    round4, round2, pyRound]

/-- Witness for C8: a single IR posting on day 1, snapshot day 10. -/
theorem grir_days_open_bucket_witness :
    (⟨"S", 5, 5, some 1, 9, "<1 month", 10⟩ : GRIRRecord).days_open
        = (match (⟨"S", 5, 5, some 1, 9, "<1 month", 10⟩ : GRIRRecord).first_exposure_date
            with
            | some d => 10 - d
            | none => 0)
      ∧ 0 ≤ (⟨"S", 5, 5, some 1, 9, "<1 month", 10⟩ : GRIRRecord).days_open
      ∧ ((⟨"S", 5, 5, some 1, 9, "<1 month", 10⟩ : GRIRRecord).days_open ≤ 30 →
          (⟨"S", 5, 5, some 1, 9, "<1 month", 10⟩ : GRIRRecord).time_bucket = "<1 month")
      ∧ (30 < (⟨"S", 5, 5, some 1, 9, "<1 month", 10⟩ : GRIRRecord).days_open →
          (⟨"S", 5, 5, some 1, 9, "<1 month", 10⟩ : GRIRRecord).days_open ≤ 90 →
          (⟨"S", 5, 5, some 1, 9, "<1 month", 10⟩ : GRIRRecord).time_bucket = "1-3 months")
      ∧ (90 < (⟨"S", 5, 5, some 1, 9, "<1 month", 10⟩ : GRIRRecord).days_open →
          (⟨"S", 5, 5, some 1, 9, "<1 month", 10⟩ : GRIRRecord).days_open ≤ 180 →
          (⟨"S", 5, 5, some 1, 9, "<1 month", 10⟩ : GRIRRecord).time_bucket = "3-6 months")
      ∧ (180 < (⟨"S", 5, 5, some 1, 9, "<1 month", 10⟩ : GRIRRecord).days_open →
          (⟨"S", 5, 5, some 1, 9, "<1 month", 10⟩ : GRIRRecord).days_open ≤ 365 →
          (⟨"S", 5, 5, some 1, 9, "<1 month", 10⟩ : GRIRRecord).time_bucket = "6-12 months")
      ∧ (365 < (⟨"S", 5, 5, some 1, 9, "<1 month", 10⟩ : GRIRRecord).days_open →
          (⟨"S", 5, 5, some 1, 9, "<1 month", 10⟩ : GRIRRecord).time_bucket = ">1 year") :=
  grir_days_open_bucket c8wPOTable [] c8wIRTable 10
    (by intro p hp; cases hp)
    (by
      intro p hp
      have hpe : p = (⟨"S", 1, 5⟩ : IRPosting) := by simpa [c8wIRTable] using hp
      rw [hpe]
      norm_num)
    ⟨"S", 5, 5, some 1, 9, "<1 month", 10⟩
    (by
      have he : calculate_grir_exposures c8wPOTable [] c8wIRTable 10
          = [⟨"S", 5, 5, some 1, 9, "<1 month", 10⟩] := by
        norm_num [calculate_grir_exposures, get_simple_po_ids, isSimplePOLine,
          SIMPLE_VENDOR_CATEGORY, SIMPLE_ACCOUNT_CATEGORIES, get_unit_prices,
          mergedPostingsFor, grToPosting, irToPosting, postingOrder, typeRank,
          List.insertionSort, List.orderedInsert, grirLineResult, grirStep,
          categorize_time_bucket, GRIR_TIME_BUCKETS, GRIR_TIME_BUCKET_MAX,
          c8wPOTable, c8wIRTable, List.dedup, List.filterMap,
          round4, round2, pyRound]
      rw [he]
      exact List.mem_singleton_self _)

/-- C5: with `Ordered Quantity` 0 and `Purchase Value USD` 10, the
unguarded float division `Purchase Value USD / Ordered Quantity` of
both scripts yields `inf`, and the amount
`round(cost_impact_qty * unit_price, 2)` of a GR posting of qty 1 on
such a line is `inf` — the code produces `inf` rather than treating the
unit price as 0 or excluding the line. -/
theorem unit_price_zero_qty_inf :
    unitPriceFloat c5POLine = PyFloat.inf
    ∧ costImpactAmountFloat 1 c5POLine = PyFloat.inf := by
  constructor
  · norm_num [unitPriceFloat, pyDiv, c5POLine]
  · norm_num [costImpactAmountFloat, unitPriceFloat, pyDiv, pyMul, pyRound2, c5POLine]

/-- C9: a GR posting whose `PO Line ID` (`"X"`) does not exist in the PO
line table reaches neither the Simple branch nor the Complex branch of
the cost-impact engine, nor the GRIR engine: all three `isin` filters
drop it, and no count of dropped postings is reported anywhere. -/
theorem orphan_posting_in_no_stream :
    simpleStreamGR c9GRTable c9POTable = []
    ∧ complexStreamGR c9GRTable c9POTable = []
    ∧ grirStreamGR c9GRTable c9POTable = [] := by
  decide
